import Mathlib

/-!
Shallow embedding of the task-registry service in `src/task.py` (a Flask +
sqlite application).  The sqlite table `tasks` is modelled as a `List Task`
in row order; each HTTP handler becomes a state-passing function
`store → (response, store)` where the response is `Except ApiError v`.
Error paths in the Python code return before any write, so they pass the
store through unchanged, and write paths (`INSERT`, `UPDATE`) are modelled
by explicit list operations.  `submitted_at DEFAULT CURRENT_TIMESTAMP` is
modelled by an explicit clock argument `now`.  JSON bodies are modelled as
structures of `Option`-typed fields, so that a missing key (`field not in
data`) is distinguishable from a present-but-empty value; payload
`estimated_time_minutes` is an `Int`, matching the `isinstance(.., int)`
guard on the only values that pass validation.
-/

namespace TaskApi

/-- A row of the sqlite `tasks` table (`CREATE TABLE` in `init_db`). -/
structure Task where
  task_str_id : String
  description : String
  estimated_time_minutes : Int
  status : String
  submitted_at : Nat
deriving DecidableEq, Repr

/-- The error responses the handlers in `src/task.py` can produce. -/
inductive ApiError where
  | noJsonData
  | missingField (f : String)
  /-- "estimated_time_minutes must be greater than 0" -/
  | invalidInput
  /-- "task_str_id must be unique" (sqlite `IntegrityError`) -/
  | duplicateKey
  | notFound
  | invalidStatus
  | illegalTransition (cur next : String)
  | noPendingTasks
  | invalidParameter (p : String)
  | internalError
deriving DecidableEq, Repr

/-- JSON body of `POST /tasks`; `Option` marks key presence. -/
structure CreatePayload where
  task_str_id : Option String
  description : Option String
  estimated_time_minutes : Option Int
deriving DecidableEq, Repr

/-- JSON body of `PUT /tasks/{id}/status`. -/
structure StatusPayload where
  new_status : Option String
deriving DecidableEq, Repr

instance {ε α : Type} [DecidableEq ε] [DecidableEq α] : DecidableEq (Except ε α) :=
  fun a b =>
    match a, b with
    | .ok x, .ok y =>
      if h : x = y then .isTrue (by rw [h])
      else .isFalse (by intro hc; cases hc; exact h rfl)
    | .error x, .error y =>
      if h : x = y then .isTrue (by rw [h])
      else .isFalse (by intro hc; cases hc; exact h rfl)
    | .ok _, .error _ => .isFalse (by intro hc; cases hc)
    | .error _, .ok _ => .isFalse (by intro hc; cases hc)

/-- `SELECT * FROM tasks WHERE task_str_id = ?` followed by `fetchone()`:
the first row with the given key. -/
def findTask (s : List Task) (id : String) : Option Task :=
  s.find? (fun t => t.task_str_id == id)

/-- `create_task` (POST /tasks): field-presence loop, the
`estimated_time_minutes` guard, then `INSERT` (failing on a duplicate
primary key) and a re-`SELECT` of the created row. -/
def create_task (s : List Task) (now : Nat) (data : Option CreatePayload) :
    Except ApiError Task × List Task :=
  match data with
  | none => (.error .noJsonData, s)
  | some d =>
    match d.task_str_id with
    | none => (.error (.missingField "task_str_id"), s)
    | some id =>
      match d.description with
      | none => (.error (.missingField "description"), s)
      | some desc =>
        match d.estimated_time_minutes with
        | none => (.error (.missingField "estimated_time_minutes"), s)
        | some m =>
          if m ≤ 0 then (.error .invalidInput, s)
          else
            match findTask s id with
            | some _ => (.error .duplicateKey, s)
            | none =>
              let t : Task := ⟨id, desc, m, "pending", now⟩
              let s' := s ++ [t]
              match findTask s' id with
              | some u => (.ok u, s')
              | none => (.error .internalError, s')

/-- `get_task` (GET /tasks/{id}). -/
def get_task (s : List Task) (id : String) : Except ApiError Task × List Task :=
  match findTask s id with
  | some t => (.ok t, s)
  | none => (.error .notFound, s)

/-- `allowed_statuses` in `update_task_status`. -/
def allowed_statuses : List String := ["pending", "processing", "completed"]

/-- `invalid_transitions` in `update_task_status`. -/
def invalid_transitions : List (String × String) :=
  [("completed", "pending"), ("completed", "processing"), ("processing", "pending")]

/-- `update_task_status` (PUT /tasks/{id}/status): body check, status
allow-list, row lookup, forbidden-transition check, then
`UPDATE tasks SET status = ? WHERE task_str_id = ?` and a re-`SELECT`. -/
def update_task_status (s : List Task) (id : String) (data : Option StatusPayload) :
    Except ApiError Task × List Task :=
  match data with
  | none => (.error (.missingField "new_status"), s)
  | some d =>
    match d.new_status with
    | none => (.error (.missingField "new_status"), s)
    | some ns =>
      if ns ∈ allowed_statuses then
        match findTask s id with
        | none => (.error .notFound, s)
        | some t =>
          if (t.status, ns) ∈ invalid_transitions then
            (.error (.illegalTransition t.status ns), s)
          else
            let s' := s.map (fun u =>
              if u.task_str_id == id then { u with status := ns } else u)
            match findTask s' id with
            | some u => (.ok u, s')
            | none => (.error .internalError, s')
      else (.error .invalidStatus, s)

/-- `WHERE status = 'pending'`. -/
def pendingTasks (s : List Task) : List Task :=
  s.filter (fun t => t.status == "pending")

/-- The order `ORDER BY estimated_time_minutes ASC, submitted_at ASC`
used by `get_next_task_to_process`. -/
def nextRel (a b : Task) : Prop :=
  a.estimated_time_minutes < b.estimated_time_minutes ∨
    (a.estimated_time_minutes = b.estimated_time_minutes ∧
      a.submitted_at ≤ b.submitted_at)

instance nextRel.instDecidable : DecidableRel nextRel := fun a b =>
  inferInstanceAs (Decidable (a.estimated_time_minutes < b.estimated_time_minutes ∨
    (a.estimated_time_minutes = b.estimated_time_minutes ∧
      a.submitted_at ≤ b.submitted_at)))

instance nextRel.instIsTotal : IsTotal Task nextRel :=
  ⟨fun a b => by
    unfold nextRel
    rcases lt_trichotomy a.estimated_time_minutes b.estimated_time_minutes with h | h | h
    · exact Or.inl (Or.inl h)
    · rcases Nat.le_total a.submitted_at b.submitted_at with h' | h'
      · exact Or.inl (Or.inr ⟨h, h'⟩)
      · exact Or.inr (Or.inr ⟨h.symm, h'⟩)
    · exact Or.inr (Or.inl h)⟩

instance nextRel.instIsTrans : IsTrans Task nextRel :=
  ⟨fun a b c hab hbc => by
    unfold nextRel at *
    rcases hab with h1 | ⟨h1, h1'⟩ <;> rcases hbc with h2 | ⟨h2, h2'⟩
    · exact Or.inl (h1.trans h2)
    · exact Or.inl (h2 ▸ h1)
    · exact Or.inl (h1 ▸ h2)
    · exact Or.inr ⟨h1.trans h2, h1'.trans h2'⟩⟩

/-- `get_next_task_to_process` (GET /tasks/next-to-process): the pending
rows ordered by `(estimated_time_minutes, submitted_at)` ascending,
`LIMIT 1`; a pure `SELECT`, so the store passes through unchanged. -/
def get_next_task_to_process (s : List Task) : Except ApiError Task × List Task :=
  match ((pendingTasks s).insertionSort nextRel).head? with
  | some t => (.ok t, s)
  | none => (.error .noPendingTasks, s)

/-- The sort key selected by the `sort_by` column name interpolated into
the listing query. -/
def keyOf (sb : String) (t : Task) : Int :=
  if sb == "submitted_at" then (t.submitted_at : Int) else t.estimated_time_minutes

/-- The row order produced by `ORDER BY {sort_by} {order.upper()}`. -/
def listRel (sb od : String) (a b : Task) : Prop :=
  if od = "desc" then keyOf sb b ≤ keyOf sb a else keyOf sb a ≤ keyOf sb b

instance listRel.instDecidable (sb od : String) : DecidableRel (listRel sb od) :=
  fun a b => inferInstanceAs
    (Decidable (if od = "desc" then keyOf sb b ≤ keyOf sb a else keyOf sb a ≤ keyOf sb b))

instance listRel.instIsTotal (sb od : String) : IsTotal Task (listRel sb od) :=
  ⟨fun a b => by
    unfold listRel
    by_cases h : od = "desc"
    · simp only [if_pos h]; omega
    · simp only [if_neg h]; omega⟩

instance listRel.instIsTrans (sb od : String) : IsTrans Task (listRel sb od) :=
  ⟨fun a b c hab hbc => by
    unfold listRel at *
    by_cases h : od = "desc"
    · simp only [if_pos h] at *; omega
    · simp only [if_neg h] at *; omega⟩

/-- sqlite `LIMIT n`: a negative `n` means no limit. -/
def applyLimit (n : Int) (xs : List Task) : List Task :=
  if n < 0 then xs else xs.take n.toNat

/-- `list_pending_tasks` (GET /tasks/pending): defaults for `sort_by`
and `order`, the `time` alias, the two allow-list checks, the sorted
`SELECT` over pending rows, and the `if limit:` branch (taken only for a
nonzero integer). -/
def list_pending_tasks (s : List Task) (sort_by order : Option String)
    (limit : Option Int) : Except ApiError (List Task) × List Task :=
  let sb0 := sort_by.getD "estimated_time_minutes"
  let od := order.getD "asc"
  let sb := if sb0 == "time" then "estimated_time_minutes" else sb0
  if sb = "estimated_time_minutes" ∨ sb = "submitted_at" then
    if od = "asc" ∨ od = "desc" then
      let sorted := (pendingTasks s).insertionSort (listRel sb od)
      let result :=
        match limit with
        | some n => if n ≠ 0 then applyLimit n sorted else sorted
        | none => sorted
      (.ok result, s)
    else (.error (.invalidParameter "order"), s)
  else (.error (.invalidParameter "sort_by"), s)

/-- `delete_task` (DELETE /tasks/{id}): `DELETE FROM tasks WHERE
task_str_id = ?`, 404 when `rowcount == 0`. -/
def delete_task (s : List Task) (id : String) :
    Except ApiError Unit × List Task :=
  let s' := s.filter (fun t => !(t.task_str_id == id))
  if s'.length = s.length then (.error .notFound, s)
  else (.ok (), s')

/-- Example store from the spec: pending tasks A(10 min, t1),
B(5 min, t2 > t1), C(5 min, t3 > t2). -/
def demoStore : List Task :=
  [⟨"A", "a", 10, "pending", 1⟩, ⟨"B", "b", 5, "pending", 2⟩,
    ⟨"C", "c", 5, "pending", 3⟩]

/-- Example store from the spec: pending tasks with times [5, 10, 20]. -/
def demoPending : List Task :=
  [⟨"A", "a", 5, "pending", 0⟩, ⟨"B", "b", 10, "pending", 1⟩,
    ⟨"C", "c", 20, "pending", 2⟩]

/-! Helper lemmas about the store model. -/

theorem findTask_append_of_none (s : List Task) (id : String) (t : Task)
    (h : findTask s id = none) (ht : t.task_str_id = id) :
    findTask (s ++ [t]) id = some t := by
  unfold findTask at *
  rw [List.find?_append, h]
  simp [List.find?, ht]

theorem findTask_map_setStatus (s : List Task) (id : String) {t : Task} (ns : String)
    (h : findTask s id = some t) :
    findTask (s.map fun u => if u.task_str_id == id then { u with status := ns } else u) id
      = some { t with status := ns } := by
  unfold findTask at *
  induction s with
  | nil => simp at h
  | cons a as ih =>
    by_cases ha : a.task_str_id = id
    · simp only [List.find?_cons, ha, beq_self_eq_true] at h
      cases h
      simp [List.map_cons, List.find?_cons, ha]
    · have ha' : (a.task_str_id == id) = false := by
        simp [ha]
      simp only [List.find?_cons, ha'] at h
      simp only [List.map_cons, List.find?_cons, ha', Bool.false_eq_true, if_false]
      exact ih h

theorem mem_pendingTasks {s : List Task} {u : Task} :
    u ∈ pendingTasks s ↔ u ∈ s ∧ u.status = "pending" := by
  simp [pendingTasks, List.mem_filter]

example :
    (create_task [] 7 (some ⟨some "T1", some "d", some 5⟩)).1 =
      .ok ⟨"T1", "d", 5, "pending", 7⟩ := by decide

example :
    (create_task [⟨"A", "d", 5, "pending", 0⟩] 7
      (some ⟨some "A", some "x", some 0⟩)).1 = .error .invalidInput := by decide

example :
    (update_task_status [] "X" (some ⟨some "bogus"⟩)).1 =
      .error .invalidStatus := by decide

example :
    (list_pending_tasks
      [⟨"A", "a", 5, "pending", 0⟩, ⟨"B", "b", 10, "pending", 1⟩,
        ⟨"C", "c", 20, "pending", 2⟩]
      (some "time") (some "desc") (some 1)).1 =
      .ok [⟨"C", "c", 20, "pending", 2⟩] := by decide


/-! Claim theorems. -/

/-- C1: creating a task with a fresh id, a non-empty description and a
positive integer estimate succeeds, persists a record with status
"pending" and `submitted_at` set to the creation clock, returns the full
record, and an immediately subsequent get returns that record. -/
theorem create_fresh_task_spec (s : List Task) (now : Nat) (id desc : String) (m : Int)
    (hfresh : findTask s id = none) (_hdesc : desc ≠ "") (hm : 0 < m) :
    (create_task s now (some ⟨some id, some desc, some m⟩)).1 =
        .ok ⟨id, desc, m, "pending", now⟩ ∧
    (get_task (create_task s now (some ⟨some id, some desc, some m⟩)).2 id).1 =
        .ok ⟨id, desc, m, "pending", now⟩ := by
  have hm' : ¬ m ≤ 0 := by omega
  have hfind := findTask_append_of_none s id ⟨id, desc, m, "pending", now⟩ hfresh rfl
  simp [create_task, get_task, hm', hfresh, hfind]

theorem create_fresh_task_spec_witness :
    findTask [] "T1" = none ∧ ("d" : String) ≠ "" ∧ (0 : Int) < 5 ∧
    ((create_task [] 7 (some ⟨some "T1", some "d", some 5⟩)).1 =
        .ok ⟨"T1", "d", 5, "pending", 7⟩ ∧
      (get_task (create_task [] 7 (some ⟨some "T1", some "d", some 5⟩)).2 "T1").1 =
        .ok ⟨"T1", "d", 5, "pending", 7⟩) :=
  ⟨by decide, by decide, by decide,
    create_fresh_task_spec [] 7 "T1" "d" 5 (by decide) (by decide) (by decide)⟩

/-- C9: `get_next_task_to_process` is read-only: the store after the call
is exactly the store before it, so no task record (in particular no
status field) is modified as a side effect of being selected. -/
theorem next_to_process_read_only (s : List Task) :
    (get_next_task_to_process s).2 = s := by
  unfold get_next_task_to_process
  split <;> rfl

/-- C10: a supplied limit of 0 is not applied at all (the `if limit:`
branch is only taken for truthy values), so the call behaves identically
to omitting the limit parameter. -/
theorem list_pending_limit_zero_spec (s : List Task) (sb od : Option String) :
    list_pending_tasks s sb od (some 0) = list_pending_tasks s sb od none := by
  unfold list_pending_tasks
  simp

/-- C6 counterexample: a create request with a present-but-empty
description, a fresh id and a positive integer estimate does NOT fail:
it succeeds and persists the record. -/
theorem create_empty_description_counterexample :
    (create_task [] 0 (some ⟨some "T1", some "", some 5⟩)).1 =
        .ok ⟨"T1", "", 5, "pending", 0⟩ ∧
    (create_task [] 0 (some ⟨some "T1", some "", some 5⟩)).2 =
        [⟨"T1", "", 5, "pending", 0⟩] :=
  ⟨by decide, by decide⟩

/-- C6 amended: a create request whose description is present but the
empty string (with fresh id and positive integer estimate) succeeds and
persists the record with the empty description; description emptiness is
not validated. -/
theorem create_empty_description_succeeds (s : List Task) (now : Nat) (id : String)
    (m : Int) (hfresh : findTask s id = none) (hm : 0 < m) :
    (create_task s now (some ⟨some id, some "", some m⟩)).1 =
        .ok ⟨id, "", m, "pending", now⟩ ∧
    findTask (create_task s now (some ⟨some id, some "", some m⟩)).2 id =
        some ⟨id, "", m, "pending", now⟩ := by
  have hm' : ¬ m ≤ 0 := by omega
  have hfind := findTask_append_of_none s id ⟨id, "", m, "pending", now⟩ hfresh rfl
  simp [create_task, hm', hfresh, hfind]

theorem create_empty_description_succeeds_witness :
    findTask [] "T1" = none ∧ (0 : Int) < 5 ∧
    ((create_task [] 3 (some ⟨some "T1", some "", some 5⟩)).1 =
        .ok ⟨"T1", "", 5, "pending", 3⟩ ∧
      findTask (create_task [] 3 (some ⟨some "T1", some "", some 5⟩)).2 "T1" =
        some ⟨"T1", "", 5, "pending", 3⟩) :=
  ⟨by decide, by decide,
    create_empty_description_succeeds [] 3 "T1" 5 (by decide) (by decide)⟩

/-- C7 counterexample: with the id already present, a payload whose
estimate is 0 fails with the estimate-validation error, not with
`DuplicateKey` (the estimate check runs before the insert). -/
theorem create_duplicate_counterexample :
    (create_task [⟨"A", "d", 5, "pending", 0⟩] 1
        (some ⟨some "A", some "x", some 0⟩)).1 = .error .invalidInput ∧
    (create_task [⟨"A", "d", 5, "pending", 0⟩] 1
        (some ⟨some "A", some "x", some 0⟩)).1 ≠ .error .duplicateKey :=
  ⟨by decide, by decide⟩

/-- C7 amended: with the id already present, a payload with all three
fields present and a positive integer estimate fails with `DuplicateKey`
and leaves the store unchanged; invalid payloads are rejected by field
validation before the duplicate check is reached. -/
theorem create_duplicate_valid_payload_fails (s : List Task) (now : Nat)
    (id desc : String) (m : Int) (t : Task)
    (hdup : findTask s id = some t) (hm : 0 < m) :
    create_task s now (some ⟨some id, some desc, some m⟩) = (.error .duplicateKey, s) := by
  have hm' : ¬ m ≤ 0 := by omega
  simp [create_task, hm', hdup]

theorem create_duplicate_valid_payload_fails_witness :
    findTask [⟨"A", "d", 5, "pending", 0⟩] "A" = some ⟨"A", "d", 5, "pending", 0⟩ ∧
    (0 : Int) < 9 ∧
    create_task [⟨"A", "d", 5, "pending", 0⟩] 1 (some ⟨some "A", some "x", some 9⟩) =
      (.error .duplicateKey, [⟨"A", "d", 5, "pending", 0⟩]) :=
  ⟨by decide, by decide,
    create_duplicate_valid_payload_fails [⟨"A", "d", 5, "pending", 0⟩] 1 "A" "x" 9
      ⟨"A", "d", 5, "pending", 0⟩ (by decide) (by decide)⟩

/-- C8 counterexample: for an id absent from the store and a `new_status`
outside the three enum values, the update fails with the invalid-status
error, not with `NotFound` (the allow-list check runs before the lookup). -/
theorem update_absent_id_counterexample :
    (update_task_status [] "X" (some ⟨some "bogus"⟩)).1 = .error .invalidStatus ∧
    (update_task_status [] "X" (some ⟨some "bogus"⟩)).1 ≠ .error .notFound :=
  ⟨by decide, by decide⟩

/-- C8 amended: for an id absent from the store and a `new_status` among
the three enum values, the update fails with `NotFound` and leaves the
store unchanged; a `new_status` outside the enum fails with the
invalid-status error regardless of id presence. -/
theorem update_absent_id_not_found (s : List Task) (id ns : String)
    (habsent : findTask s id = none) (hns : ns ∈ allowed_statuses) :
    update_task_status s id (some ⟨some ns⟩) = (.error .notFound, s) := by
  simp [update_task_status, hns, habsent]

theorem update_absent_id_not_found_witness :
    findTask [] "X" = none ∧ "processing" ∈ allowed_statuses ∧
    update_task_status [] "X" (some ⟨some "processing"⟩) = (.error .notFound, []) :=
  ⟨by decide, by decide, update_absent_id_not_found [] "X" "processing" (by decide) (by decide)⟩

/-- C3: for an existing task and a requested status among the three enum
values, the update fails with the illegal-transition error exactly when
the pair (current, requested) is one of (completed, pending),
(completed, processing), (processing, pending); every other pair,
including same-status pairs, persists the new status and returns the
updated record. -/
theorem update_status_transition_spec (s : List Task) (id ns : String) (t : Task)
    (hfind : findTask s id = some t) (hns : ns ∈ allowed_statuses) :
    ((t.status, ns) ∈ invalid_transitions →
      update_task_status s id (some ⟨some ns⟩) =
        (.error (.illegalTransition t.status ns), s)) ∧
    ((t.status, ns) ∉ invalid_transitions →
      ∃ s', update_task_status s id (some ⟨some ns⟩) =
          (.ok { t with status := ns }, s') ∧
        findTask s' id = some { t with status := ns }) := by
  constructor
  · intro hforb
    simp [update_task_status, hns, hfind, hforb]
  · intro hok
    have hmap := findTask_map_setStatus s id ns hfind
    refine ⟨s.map (fun u => if u.task_str_id == id then { u with status := ns } else u),
      ?_, hmap⟩
    simp only [beq_iff_eq] at hmap
    simp [update_task_status, hns, hfind, hok, hmap]

theorem update_status_transition_spec_witness :
    (findTask [⟨"A", "d", 5, "pending", 0⟩] "A" = some ⟨"A", "d", 5, "pending", 0⟩ ∧
      "pending" ∈ allowed_statuses ∧
      ("pending", "pending") ∉ invalid_transitions ∧
      ∃ s', update_task_status [⟨"A", "d", 5, "pending", 0⟩] "A" (some ⟨some "pending"⟩) =
          (.ok ⟨"A", "d", 5, "pending", 0⟩, s') ∧
        findTask s' "A" = some ⟨"A", "d", 5, "pending", 0⟩) ∧
    (("completed", "processing") ∈ invalid_transitions ∧
      update_task_status [⟨"B", "d", 5, "completed", 0⟩] "B" (some ⟨some "processing"⟩) =
        (.error (.illegalTransition "completed" "processing"),
          [⟨"B", "d", 5, "completed", 0⟩])) :=
  ⟨⟨by decide, by decide, by decide,
      (update_status_transition_spec [⟨"A", "d", 5, "pending", 0⟩] "A" "pending"
        ⟨"A", "d", 5, "pending", 0⟩ (by decide) (by decide)).2 (by decide)⟩,
    ⟨by decide,
      (update_status_transition_spec [⟨"B", "d", 5, "completed", 0⟩] "B" "processing"
        ⟨"B", "d", 5, "completed", 0⟩ (by decide) (by decide)).1 (by decide)⟩⟩

/-- C4: whenever a requested transition on an existing task is one of the
forbidden pairs, the update fails and the store — in particular the
task's stored status — is exactly what it was before the request. -/
theorem update_status_reject_frame (s : List Task) (id ns : String) (t : Task)
    (hfind : findTask s id = some t)
    (hforb : (t.status, ns) ∈ invalid_transitions) :
    (update_task_status s id (some ⟨some ns⟩)).1 =
        .error (.illegalTransition t.status ns) ∧
    (update_task_status s id (some ⟨some ns⟩)).2 = s := by
  have hns : ns ∈ allowed_statuses := by
    have h := hforb
    simp only [invalid_transitions, List.mem_cons, List.not_mem_nil, or_false,
      Prod.mk.injEq] at h
    rcases h with ⟨_, h2⟩ | ⟨_, h2⟩ | ⟨_, h2⟩ <;> subst h2 <;> decide
  simp [update_task_status, hns, hfind, hforb]

theorem update_status_reject_frame_witness :
    findTask [⟨"A", "d", 5, "completed", 0⟩] "A" = some ⟨"A", "d", 5, "completed", 0⟩ ∧
    ("completed", "pending") ∈ invalid_transitions ∧
    ((update_task_status [⟨"A", "d", 5, "completed", 0⟩] "A" (some ⟨some "pending"⟩)).1 =
        .error (.illegalTransition "completed" "pending") ∧
      (update_task_status [⟨"A", "d", 5, "completed", 0⟩] "A" (some ⟨some "pending"⟩)).2 =
        [⟨"A", "d", 5, "completed", 0⟩]) :=
  ⟨by decide, by decide,
    update_status_reject_frame [⟨"A", "d", 5, "completed", 0⟩] "A" "pending"
      ⟨"A", "d", 5, "completed", 0⟩ (by decide) (by decide)⟩

/-- C2: when at least one pending task exists, `get_next_task_to_process`
returns a pending task whose `estimated_time_minutes` is smallest among
pending tasks, with ties broken by earliest `submitted_at`; when no
pending task exists it fails with the no-pending-tasks error. -/
theorem next_to_process_spec (s : List Task) :
    ((∃ t ∈ s, t.status = "pending") →
      ∃ t, (get_next_task_to_process s).1 = .ok t ∧ t ∈ s ∧ t.status = "pending" ∧
        ∀ u ∈ s, u.status = "pending" →
          (t.estimated_time_minutes < u.estimated_time_minutes ∨
            (t.estimated_time_minutes = u.estimated_time_minutes ∧
              t.submitted_at ≤ u.submitted_at))) ∧
    ((∀ t ∈ s, t.status ≠ "pending") →
      (get_next_task_to_process s).1 = .error .noPendingTasks) := by
  constructor
  · rintro ⟨t0, ht0, hp0⟩
    have hperm : List.Perm ((pendingTasks s).insertionSort nextRel) (pendingTasks s) :=
      List.perm_insertionSort _ _
    have hsorted : ((pendingTasks s).insertionSort nextRel).Sorted nextRel :=
      List.sorted_insertionSort _ _
    have ht0L : t0 ∈ (pendingTasks s).insertionSort nextRel :=
      hperm.mem_iff.mpr (mem_pendingTasks.mpr ⟨ht0, hp0⟩)
    cases hhead : ((pendingTasks s).insertionSort nextRel).head? with
    | none =>
      rw [List.head?_eq_none_iff] at hhead
      rw [hhead] at ht0L
      cases ht0L
    | some t =>
      obtain ⟨rest, hrest⟩ := List.head?_eq_some_iff.mp hhead
      have htL : t ∈ (pendingTasks s).insertionSort nextRel := by
        rw [hrest]; exact List.mem_cons_self _ _
      have htp := mem_pendingTasks.mp (hperm.mem_iff.mp htL)
      refine ⟨t, ?_, htp.1, htp.2, ?_⟩
      · unfold get_next_task_to_process
        rw [hhead]
      · intro u hu hup
        have huL : u ∈ (pendingTasks s).insertionSort nextRel :=
          hperm.mem_iff.mpr (mem_pendingTasks.mpr ⟨hu, hup⟩)
        rw [hrest] at huL
        rcases List.mem_cons.mp huL with h | h
        · subst h
          exact Or.inr ⟨rfl, le_refl _⟩
        · exact List.rel_of_sorted_cons (hrest ▸ hsorted) u h
  · intro hnone
    have hnil : pendingTasks s = [] := by
      apply List.filter_eq_nil_iff.mpr
      intro a ha
      simp [hnone a ha]
    unfold get_next_task_to_process
    rw [hnil]
    simp [List.insertionSort]

theorem next_to_process_spec_witness :
    (∃ t ∈ demoStore, t.status = "pending") ∧
    (∃ t, (get_next_task_to_process demoStore).1 = .ok t ∧ t ∈ demoStore ∧
        t.status = "pending" ∧
        ∀ u ∈ demoStore, u.status = "pending" →
          (t.estimated_time_minutes < u.estimated_time_minutes ∨
            (t.estimated_time_minutes = u.estimated_time_minutes ∧
              t.submitted_at ≤ u.submitted_at))) ∧
    (get_next_task_to_process demoStore).1 = .ok ⟨"B", "b", 5, "pending", 2⟩ :=
  ⟨⟨⟨"B", "b", 5, "pending", 2⟩, by decide, rfl⟩,
    (next_to_process_spec demoStore).1 ⟨⟨"B", "b", 5, "pending", 2⟩, by decide, rfl⟩,
    by decide⟩

/-- C5: `list_pending_tasks` accepts `sort_by` in
{estimated_time_minutes, submitted_at} with "time" as an alias for
`estimated_time_minutes` and `order` in {asc, desc}, failing with the
invalid-parameter error on any other value; on success it returns exactly
the pending tasks sorted by the chosen field in the chosen direction, all
of them when no limit is supplied and a prefix of at most `n` records
when a positive limit `n` is supplied. -/
theorem list_pending_params_spec (s : List Task) (sb od : String) (lim : Option Int)
    (hlim : ∀ n, lim = some n → 0 < n) :
    (sb ∉ (["estimated_time_minutes", "submitted_at", "time"] : List String) →
      (list_pending_tasks s (some sb) (some od) lim).1 =
        .error (.invalidParameter "sort_by")) ∧
    (sb ∈ (["estimated_time_minutes", "submitted_at", "time"] : List String) →
      od ∉ (["asc", "desc"] : List String) →
      (list_pending_tasks s (some sb) (some od) lim).1 =
        .error (.invalidParameter "order")) ∧
    (sb ∈ (["estimated_time_minutes", "submitted_at", "time"] : List String) →
      od ∈ (["asc", "desc"] : List String) →
      ∃ L, (list_pending_tasks s (some sb) (some od) none).1 = .ok L ∧
        List.Perm L (pendingTasks s) ∧
        L.Sorted (listRel (if sb = "time" then "estimated_time_minutes" else sb) od) ∧
        ∀ n, lim = some n →
          (list_pending_tasks s (some sb) (some od) lim).1 = .ok (L.take n.toNat)) := by
  refine ⟨?_, ?_, ?_⟩
  · intro hsb
    simp only [List.mem_cons, List.not_mem_nil, or_false, not_or] at hsb
    obtain ⟨h1, h2, h3⟩ := hsb
    simp [list_pending_tasks, h1, h2, h3]
  · intro hsb hod
    simp only [List.mem_cons, List.not_mem_nil, or_false, not_or] at hod
    obtain ⟨o1, o2⟩ := hod
    simp only [List.mem_cons, List.not_mem_nil, or_false] at hsb
    rcases hsb with rfl | rfl | rfl <;>
      simp [list_pending_tasks, o1, o2]
  · intro hsb hod
    simp only [List.mem_cons, List.not_mem_nil, or_false] at hsb hod
    rcases hsb with rfl | rfl | rfl <;> rcases hod with rfl | rfl <;>
    · refine ⟨_, rfl, List.perm_insertionSort _ _, List.sorted_insertionSort _ _, ?_⟩
      intro n hn
      have hpos := hlim n hn
      subst hn
      have h0 : n ≠ 0 := by omega
      have hneg : ¬ n < 0 := by omega
      simp [list_pending_tasks, applyLimit, h0, hneg]

theorem list_pending_params_spec_witness :
    ("time" ∈ (["estimated_time_minutes", "submitted_at", "time"] : List String)) ∧
    ("desc" ∈ (["asc", "desc"] : List String)) ∧
    (∃ L, (list_pending_tasks demoPending (some "time") (some "desc") none).1 = .ok L ∧
        List.Perm L (pendingTasks demoPending) ∧
        L.Sorted (listRel (if "time" = "time" then "estimated_time_minutes" else "time")
          "desc") ∧
        ∀ n, (some 1 : Option Int) = some n →
          (list_pending_tasks demoPending (some "time") (some "desc") (some 1)).1 =
            .ok (L.take n.toNat)) ∧
    (list_pending_tasks demoPending (some "time") (some "desc") (some 1)).1 =
      .ok [⟨"C", "c", 20, "pending", 2⟩] :=
  ⟨by decide, by decide,
    (list_pending_params_spec demoPending "time" "desc" (some 1)
      (fun n hn => by cases hn; decide)).2.2 (by decide) (by decide),
    by decide⟩

end TaskApi
